import Mathlib

/-!
Verification of the cykas cryptocurrency address-derivation core.

The development shallowly embeds the repository's three source files:
  * src/util/check.rs      — double-SHA256 checksum
  * src/util/ecdsa.rs      — secp256k1 public-key derivation (via OpenSSL FFI)
  * src/protocol/public_key.rs — the PublicKey type and its validation

Bytes are modelled as Nat (each in range [0, 255]); byte strings as List Nat.
Machine words are Nat reduced modulo 2^32 at every operation.
-/

namespace Cykas

/-- 2^32, the modulus for 32-bit word arithmetic. -/
def u32 : Nat := 4294967296

/-- Big-endian encoding of a natural number into exactly len bytes
(low bytes of n beyond len·8 bits are dropped from the top). -/
def natToBytesBE : Nat → Nat → List Nat
  | _, 0 => []
  | n, len + 1 => natToBytesBE (n / 256) len ++ [n % 256]

/-- Big-endian decoding of a byte string into a natural number. -/
def bytesToNatBE (l : List Nat) : Nat :=
  l.foldl (fun acc b => acc * 256 + b) 0

/-- Right-rotation of a 32-bit word by r bits, expressed arithmetically. -/
def rotr32 (r x : Nat) : Nat :=
  x / 2 ^ r + x % 2 ^ r * 2 ^ (32 - r)

/-- Logical right shift of a 32-bit word. -/
def shr32 (r x : Nat) : Nat := x / 2 ^ r

/-- SHA-256 round constants (decimal, five per row). -/
def sha256K : List Nat :=
  [1116352408, 1899447441, 3049323471, 3921009573, 961987163,
   1508970993, 2453635748, 2870763221, 3624381080, 310598401,
   607225278, 1426881987, 1925078388, 2162078206, 2614888103,
   3248222580, 3835390401, 4022224774, 264347078, 604807628,
   770255983, 1249150122, 1555081692, 1996064986, 2554220882,
   2821834349, 2952996808, 3210313671, 3336571891, 3584528711,
   113926993, 338241895, 666307205, 773529912, 1294757372,
   1396182291, 1695183700, 1986661051, 2177026350, 2456956037,
   2730485921, 2820302411, 3259730800, 3345764771, 3516065817,
   3600352804, 4094571909, 275423344, 430227734, 506948616,
   659060556, 883997877, 958139571, 1322822218, 1537002063,
   1747873779, 1955562222, 2024104815, 2227730452, 2361852424,
   2428436474, 2756734187, 3204031479, 3329325298]

/-- SHA-256 working state: eight 32-bit registers. -/
structure Sha256Regs where
  a : Nat
  b : Nat
  c : Nat
  d : Nat
  e : Nat
  f : Nat
  g : Nat
  h : Nat

/-- SHA-256 initial hash value (decimal). -/
def sha256H0 : Sha256Regs :=
  ⟨1779033703, 3144134277, 1013904242, 2773480762,
   1359893119, 2600822924, 528734635, 1541459225⟩

/-- SHA-256 choice function. -/
def sha256Ch (e f g : Nat) : Nat := (e &&& f) ^^^ ((e ^^^ 0xffffffff) &&& g)

/-- SHA-256 majority function. -/
def sha256Maj (a b c : Nat) : Nat := (a &&& b) ^^^ (a &&& c) ^^^ (b &&& c)

/-- SHA-256 big sigma 0. -/
def bigSigma0 (x : Nat) : Nat := rotr32 2 x ^^^ rotr32 13 x ^^^ rotr32 22 x

/-- SHA-256 big sigma 1. -/
def bigSigma1 (x : Nat) : Nat := rotr32 6 x ^^^ rotr32 11 x ^^^ rotr32 25 x

/-- SHA-256 small sigma 0. -/
def smallSigma0 (x : Nat) : Nat := rotr32 7 x ^^^ rotr32 18 x ^^^ shr32 3 x

/-- SHA-256 small sigma 1. -/
def smallSigma1 (x : Nat) : Nat := rotr32 17 x ^^^ rotr32 19 x ^^^ shr32 10 x

/-- Group a byte string into big-endian 32-bit words, four bytes per word. -/
def bytesToWordsBE : List Nat → List Nat
  | b0 :: b1 :: b2 :: b3 :: rest =>
      (((b0 * 256 + b1) * 256 + b2) * 256 + b3) :: bytesToWordsBE rest
  | _ => []

/-- Extend the 16-word message schedule by the given number of extra words. -/
def extendW : Nat → List Nat → List Nat
  | 0, w => w
  | fuel + 1, w =>
      let t := w.length
      let nw := (smallSigma1 (w.getD (t - 2) 0) + w.getD (t - 7) 0 +
                 smallSigma0 (w.getD (t - 15) 0) + w.getD (t - 16) 0) % u32
      extendW fuel (w ++ [nw])

/-- The 64 SHA-256 compression rounds, consuming paired round constants
and schedule words. -/
def sha256rounds : List (Nat × Nat) → Sha256Regs → Sha256Regs
  | [], r => r
  | (k, w) :: rest, r =>
      let t1 := (r.h + bigSigma1 r.e + sha256Ch r.e r.f r.g + k + w) % u32
      let t2 := (bigSigma0 r.a + sha256Maj r.a r.b r.c) % u32
      sha256rounds rest
        ⟨(t1 + t2) % u32, r.a, r.b, r.c, (r.d + t1) % u32, r.e, r.f, r.g⟩

/-- Process one 64-byte block: build the schedule, run the rounds, add back. -/
def sha256block (hs : Sha256Regs) (block : List Nat) : Sha256Regs :=
  let w := extendW 48 (bytesToWordsBE block)
  let r := sha256rounds (sha256K.zip w) hs
  ⟨(hs.a + r.a) % u32, (hs.b + r.b) % u32, (hs.c + r.c) % u32, (hs.d + r.d) % u32,
   (hs.e + r.e) % u32, (hs.f + r.f) % u32, (hs.g + r.g) % u32, (hs.h + r.h) % u32⟩

/-- Split a byte string into 64-byte chunks, with fuel for termination. -/
def chunks64 : Nat → List Nat → List (List Nat)
  | 0, _ => []
  | _ + 1, [] => []
  | fuel + 1, l => l.take 64 :: chunks64 fuel (l.drop 64)

/-- SHA-256 message padding: append 0x80, zero bytes up to 56 mod 64, then
the 8-byte big-endian bit length. -/
def sha256pad (msg : List Nat) : List Nat :=
  msg ++ [0x80] ++ List.replicate ((119 - msg.length % 64) % 64) 0
      ++ natToBytesBE (msg.length * 8) 8

/-- Full SHA-256 of a byte string, returning the 32-byte digest. -/
def sha256 (msg : List Nat) : List Nat :=
  let padded := sha256pad msg
  let fin := (chunks64 padded.length padded).foldl sha256block sha256H0
  natToBytesBE fin.a 4 ++ natToBytesBE fin.b 4 ++ natToBytesBE fin.c 4 ++
  natToBytesBE fin.d 4 ++ natToBytesBE fin.e 4 ++ natToBytesBE fin.f 4 ++
  natToBytesBE fin.g 4 ++ natToBytesBE fin.h 4

/-- src/util/check.rs double_sha256: SHA256 applied twice. -/
def double_sha256 (data : List Nat) : List Nat :=
  sha256 (sha256 data)

/-- src/util/check.rs checksum: first 4 bytes of the double SHA256. -/
def checksum (data : List Nat) : List Nat :=
  (double_sha256 data).take 4

end Cykas

namespace Cykas

/-- Modelled from the spec: the secp256k1 prime field modulus
p = 2^256 − 2^32 − 977 (the Elliptic Curve Engine itself lives behind the
OpenSSL FFI boundary and is not in the repository source). -/
def secpP : Nat :=
  0xfffffffffffffffffffffffffffffffffffffffffffffffffffffffefffffc2f

/-- Modelled from the spec: the secp256k1 group order n. -/
def secpN : Nat :=
  0xfffffffffffffffffffffffffffffffffffffffffffffffebaaedce6af48a03bbfd25e8cd0364141

/-- Modelled from the spec: X coordinate of the secp256k1 base point G. -/
def secpGx : Nat :=
  0x79be667ef9dcbbac55a06295ce870b07029bfcdb2dce28d959f2815b16f81798

/-- Modelled from the spec: Y coordinate of the secp256k1 base point G. -/
def secpGy : Nat :=
  0x483ada7726a3c4655da4fbfc0e1108a8fd17b448a68554199c47d08ffb10d4b8

/-- Fuel-based modular exponentiation accumulator (square and multiply). -/
def powModAux : Nat → Nat → Nat → Nat → Nat → Nat
  | 0, _, _, _, acc => acc
  | fuel + 1, b, e, m, acc =>
      if e = 0 then acc
      else powModAux fuel (b * b % m) (e / 2) m (if e % 2 = 1 then acc * b % m else acc)

/-- Modular inverse in the secp256k1 field via Fermat: a^(p−2) mod p. -/
def pinv (a : Nat) : Nat := powModAux 260 (a % secpP) (secpP - 2) secpP 1

/-- Modelled from the spec: affine point doubling on y² = x³ + 7 over the
prime field; the point at infinity is the identity sentinel (none). -/
def ecDouble : Option (Nat × Nat) → Option (Nat × Nat)
  | none => none
  | some (x, y) =>
      if y % secpP = 0 then none
      else
        let lam := 3 * x * x % secpP * pinv (2 * y % secpP) % secpP
        let x3 := (lam * lam + 2 * (secpP - x % secpP)) % secpP
        let y3 := (lam * ((x + secpP - x3) % secpP) + (secpP - y % secpP)) % secpP
        some (x3, y3)

/-- Modelled from the spec: affine point addition on secp256k1, with the
curve's chord formula, the tangent case delegated to doubling, and the
point at infinity as identity. -/
def ecAdd : Option (Nat × Nat) → Option (Nat × Nat) → Option (Nat × Nat)
  | none, q => q
  | p1, none => p1
  | some (x1, y1), some (x2, y2) =>
      if x1 % secpP = x2 % secpP then
        if (y1 + y2) % secpP = 0 then none
        else ecDouble (some (x1, y1))
      else
        let lam := (y2 + secpP - y1 % secpP) % secpP *
                   pinv ((x2 + secpP - x1 % secpP) % secpP) % secpP
        let x3 := (lam * lam + (secpP - x1 % secpP) + (secpP - x2 % secpP)) % secpP
        let y3 := (lam * ((x1 + secpP - x3) % secpP) + (secpP - y1 % secpP)) % secpP
        some (x3, y3)

/-- Fuel-based binary double-and-add accumulator, least significant bit
first. -/
def ecMulAux : Nat → Nat → Option (Nat × Nat) → Option (Nat × Nat) → Option (Nat × Nat)
  | 0, _, _, acc => acc
  | fuel + 1, k, pt, acc =>
      if k = 0 then acc
      else ecMulAux fuel (k / 2) (ecDouble pt)
             (if k % 2 = 1 then ecAdd acc pt else acc)

/-- Modelled from the spec: the Elliptic Curve Engine's scalar
multiplication k·G by binary double-and-add (EC_POINT_mul with the base
point, behind the FFI boundary). Multiplying by 0 yields the point at
infinity. -/
def ecMul (k : Nat) : Option (Nat × Nat) :=
  ecMulAux 260 k (some (secpGx, secpGy)) none

/-- Models EC_POINT_point2oct writing into the preallocated 65-byte zero
buffer of derive_public_key: a finite point is written as
0x04 || X (32 bytes big-endian) || Y (32 bytes big-endian); the point at
infinity writes a single 0x00 byte, leaving the rest of the buffer zero. -/
def pointToOct : Option (Nat × Nat) → List Nat
  | none => List.replicate 65 0
  | some (x, y) => 0x04 :: (natToBytesBE x 32 ++ natToBytesBE y 32)

/-- src/util/ecdsa.rs derive_public_key: asserts the key is 32 bytes
(none models the assertion panic), multiplies the decoded big-endian
scalar by the base point, serialises the point into the 65-byte buffer and
overwrites byte 0 with 0x04. -/
def derive_public_key (private_key : List Nat) : Option (List Nat) :=
  if private_key.length = 32 then
    some ((pointToOct (ecMul (bytesToNatBE private_key))).set 0 0x04)
  else
    none

/-- src/protocol/private_key.rs PrivateKey (only its accessor is needed
here): a wrapper around raw bytes. -/
structure PrivateKey where
  data : List Nat

/-- PrivateKey accessor for the raw bytes. -/
def PrivateKey.get_data (k : PrivateKey) : List Nat := k.data

/-- src/protocol/public_key.rs PublicKey: a wrapper around raw bytes. -/
structure PublicKey where
  data : List Nat

/-- src/protocol/public_key.rs is_valid: length 65 and leading byte 0x04. -/
def PublicKey.is_valid (k : PublicKey) : Bool :=
  k.data.length == 65 && k.data.getD 0 0 == 0x04

/-- src/protocol/public_key.rs PublicKey::new: copy the bytes, return
None when is_valid fails. -/
def PublicKey.new (data : List Nat) : Option PublicKey :=
  let key : PublicKey := ⟨data⟩
  if key.is_valid then some key else none

/-- src/protocol/public_key.rs PublicKey::get_data. -/
def PublicKey.get_data (k : PublicKey) : List Nat := k.data

/-- src/protocol/public_key.rs PublicKey::from_private_key: wraps
derive_public_key of the private key bytes (the Option propagates the
modelled assertion panic of derive_public_key). -/
def PublicKey.from_private_key (private_key : PrivateKey) : Option PublicKey :=
  (derive_public_key private_key.get_data).map (fun d => ⟨d⟩)

end Cykas

namespace Cykas

/-- Left-rotation of a 32-bit word by r bits, expressed arithmetically. -/
def rotl32 (r x : Nat) : Nat :=
  x % 2 ^ (32 - r) * 2 ^ r + x / 2 ^ (32 - r)

/-- Little-endian encoding of a natural number into exactly len bytes. -/
def natToBytesLE : Nat → Nat → List Nat
  | _, 0 => []
  | n, len + 1 => n % 256 :: natToBytesLE (n / 256) len

/-- Group a byte string into little-endian 32-bit words. -/
def bytesToWordsLE : List Nat → List Nat
  | b0 :: b1 :: b2 :: b3 :: rest =>
      (b0 + 256 * (b1 + 256 * (b2 + 256 * b3))) :: bytesToWordsLE rest
  | _ => []

/-- RIPEMD-160 left-line message word order. -/
def rmdRL : List Nat :=
  [0, 1, 2, 3, 4, 5, 6, 7, 8, 9, 10, 11, 12, 13, 14, 15,
   7, 4, 13, 1, 10, 6, 15, 3, 12, 0, 9, 5, 2, 14, 11, 8,
   3, 10, 14, 4, 9, 15, 8, 1, 2, 7, 0, 6, 13, 11, 5, 12,
   1, 9, 11, 10, 0, 8, 12, 4, 13, 3, 7, 15, 14, 5, 6, 2,
   4, 0, 5, 9, 7, 12, 2, 10, 14, 1, 3, 8, 11, 6, 15, 13]

/-- RIPEMD-160 right-line message word order. -/
def rmdRR : List Nat :=
  [5, 14, 7, 0, 9, 2, 11, 4, 13, 6, 15, 8, 1, 10, 3, 12,
   6, 11, 3, 7, 0, 13, 5, 10, 14, 15, 8, 12, 4, 9, 1, 2,
   15, 5, 1, 3, 7, 14, 6, 9, 11, 8, 12, 2, 10, 0, 4, 13,
   8, 6, 4, 1, 3, 11, 15, 0, 5, 12, 2, 13, 9, 7, 10, 14,
   12, 15, 10, 4, 1, 5, 8, 7, 6, 2, 13, 14, 0, 3, 9, 11]

/-- RIPEMD-160 left-line rotation amounts. -/
def rmdSL : List Nat :=
  [11, 14, 15, 12, 5, 8, 7, 9, 11, 13, 14, 15, 6, 7, 9, 8,
   7, 6, 8, 13, 11, 9, 7, 15, 7, 12, 15, 9, 11, 7, 13, 12,
   11, 13, 6, 7, 14, 9, 13, 15, 14, 8, 13, 6, 5, 12, 7, 5,
   11, 12, 14, 15, 14, 15, 9, 8, 9, 14, 5, 6, 8, 6, 5, 12,
   9, 15, 5, 11, 6, 8, 13, 12, 5, 12, 13, 14, 11, 8, 5, 6]

/-- RIPEMD-160 right-line rotation amounts. -/
def rmdSR : List Nat :=
  [8, 9, 9, 11, 13, 15, 15, 5, 7, 7, 8, 11, 14, 14, 12, 6,
   9, 13, 15, 7, 12, 8, 9, 11, 7, 7, 12, 7, 6, 15, 13, 11,
   9, 7, 15, 11, 8, 6, 6, 14, 12, 13, 5, 14, 13, 13, 7, 5,
   15, 5, 8, 11, 14, 14, 6, 14, 6, 9, 12, 9, 12, 5, 15, 8,
   8, 5, 12, 9, 12, 5, 14, 6, 8, 13, 6, 5, 15, 13, 11, 11]

/-- RIPEMD-160 round selection function for step j. -/
def rmdF (j x y z : Nat) : Nat :=
  if j < 16 then x ^^^ y ^^^ z
  else if j < 32 then (x &&& y) ||| ((x ^^^ 0xffffffff) &&& z)
  else if j < 48 then (x ||| (y ^^^ 0xffffffff)) ^^^ z
  else if j < 64 then (x &&& z) ||| (y &&& (z ^^^ 0xffffffff))
  else x ^^^ (y ||| (z ^^^ 0xffffffff))

/-- RIPEMD-160 left-line round constants. -/
def rmdKL (j : Nat) : Nat :=
  if j < 16 then 0 else if j < 32 then 0x5a827999
  else if j < 48 then 0x6ed9eba1 else if j < 64 then 0x8f1bbcdc
  else 0xa953fd4e

/-- RIPEMD-160 right-line round constants. -/
def rmdKR (j : Nat) : Nat :=
  if j < 16 then 0x50a28be6 else if j < 32 then 0x5c4dd124
  else if j < 48 then 0x6d703ef3 else if j < 64 then 0x7a6d76e9
  else 0

/-- RIPEMD-160 working state: five 32-bit registers. -/
structure RmdRegs where
  a : Nat
  b : Nat
  c : Nat
  d : Nat
  e : Nat

/-- RIPEMD-160 initial hash value. -/
def rmdH0 : RmdRegs := ⟨0x67452301, 0xefcdab89, 0x98badcfe, 0x10325476, 0xc3d2e1f0⟩

/-- The 80 RIPEMD-160 steps, running the left and the right line in
parallel on the message words x, step counter j rising from 0. -/
def rmdRounds : Nat → Nat → List Nat → RmdRegs → RmdRegs → RmdRegs × RmdRegs
  | 0, _, _, l, r => (l, r)
  | fuel + 1, j, x, l, r =>
      let tl := (rotl32 (rmdSL.getD j 0)
                  ((l.a + rmdF j l.b l.c l.d + x.getD (rmdRL.getD j 0) 0 + rmdKL j) % u32)
                 + l.e) % u32
      let tr := (rotl32 (rmdSR.getD j 0)
                  ((r.a + rmdF (79 - j) r.b r.c r.d + x.getD (rmdRR.getD j 0) 0 + rmdKR j) % u32)
                 + r.e) % u32
      rmdRounds fuel (j + 1) x
        ⟨l.e, tl, l.b, rotl32 10 l.c, l.d⟩
        ⟨r.e, tr, r.b, rotl32 10 r.c, r.d⟩

/-- Process one 64-byte RIPEMD-160 block and combine both lines. -/
def rmdBlock (h : RmdRegs) (block : List Nat) : RmdRegs :=
  let x := bytesToWordsLE block
  let lr := rmdRounds 80 0 x h h
  let l := lr.1
  let r := lr.2
  ⟨(h.b + l.c + r.d) % u32, (h.c + l.d + r.e) % u32, (h.d + l.e + r.a) % u32,
   (h.e + l.a + r.b) % u32, (h.a + l.b + r.c) % u32⟩

/-- RIPEMD-160 padding: like SHA-256 but the bit length is little-endian. -/
def rmdPad (msg : List Nat) : List Nat :=
  msg ++ [0x80] ++ List.replicate ((119 - msg.length % 64) % 64) 0
      ++ natToBytesLE (msg.length * 8) 8

/-- Full RIPEMD-160 of a byte string, returning the 20-byte digest
(little-endian word serialisation). -/
def ripemd160 (msg : List Nat) : List Nat :=
  let padded := rmdPad msg
  let fin := (chunks64 padded.length padded).foldl rmdBlock rmdH0
  natToBytesLE fin.a 4 ++ natToBytesLE fin.b 4 ++ natToBytesLE fin.c 4 ++
  natToBytesLE fin.d 4 ++ natToBytesLE fin.e 4

/-- Modelled from the spec: hash160 (src/util/hash.rs is not in the
repository source) is RIPEMD160 composed with SHA256. -/
def hash160 (data : List Nat) : List Nat :=
  ripemd160 (sha256 data)

/-- Modelled from the spec: the standard Bitcoin Base58 alphabet. -/
def b58Alphabet : List Char :=
  "123456789ABCDEFGHJKLMNPQRSTUVWXYZabcdefghijkmnopqrstuvwxyz".toList

/-- Base58 digits of a number, most significant first, fuel-based. -/
def b58Digits : Nat → Nat → List Char
  | 0, _ => []
  | fuel + 1, n =>
      if n = 0 then []
      else b58Digits fuel (n / 58) ++ [b58Alphabet.getD (n % 58) (Char.ofNat 49)]

/-- Number of leading zero bytes of a byte string. -/
def countLeadingZeros : List Nat → Nat
  | 0 :: rest => countLeadingZeros rest + 1
  | _ => 0

/-- Modelled from the spec: Base58 encoding (src/util/base58.rs is not in
the repository source): big-endian base conversion with one leading
alphabet-index-0 character per leading zero byte. -/
def base58encode (bytes : List Nat) : String :=
  String.mk (List.replicate (countLeadingZeros bytes) (Char.ofNat 49)
             ++ b58Digits 64 (bytesToNatBE bytes))

/-- Modelled from the spec: the default address version byte. -/
def address_version : Nat := 0x00

/-- src/protocol/address.rs Address (not in the repository source): a
wrapper around the raw 25 address bytes. -/
structure Address where
  data : List Nat

/-- Address accessor for the raw bytes. -/
def Address.get_data (a : Address) : List Nat := a.data

/-- Modelled from the spec: Address::from_public_key (src/protocol/address.rs
is not in the repository source): version byte, then hash160 of the raw
public key, then the 4-byte checksum of that payload. -/
def Address.from_public_key (pk : PublicKey) : Address :=
  let payload := address_version :: hash160 pk.get_data
  ⟨payload ++ checksum payload⟩

/-- Modelled from the spec: Address::to_text, the Base58 rendering of the
raw address bytes. -/
def Address.to_text (a : Address) : String :=
  base58encode a.data

/-- src/protocol/public_key.rs PublicKey::to_address: delegates to
Address::from_public_key. -/
def PublicKey.to_address (k : PublicKey) : Address :=
  Address.from_public_key k

end Cykas

namespace Cykas

/-- Big-endian serialisation always produces exactly the requested number
of bytes. -/
theorem natToBytesBE_length (n len : Nat) : (natToBytesBE n len).length = len := by
  induction len generalizing n with
  | zero => rfl
  | succ k ih => simp [natToBytesBE, ih]

/-- SHA-256 digests are always 32 bytes. -/
theorem sha256_length (msg : List Nat) : (sha256 msg).length = 32 := by
  simp [sha256, natToBytesBE_length]

/-- The point serialisation buffer of derive_public_key is always 65
bytes. -/
theorem pointToOct_length (pt : Option (Nat × Nat)) : (pointToOct pt).length = 65 := by
  cases pt with
  | none => simp [pointToOct]
  | some q => simp [pointToOct, natToBytesBE_length]

/-- Overwriting index 0 of a nonempty list makes that value its head. -/
theorem getD_set_zero (l : List Nat) (v : Nat) (h : l ≠ []) :
    (l.set 0 v).getD 0 0 = v := by
  cases l with
  | nil => exact absurd rfl h
  | cons a t => rfl

/-- Every 32-byte input passes derive_public_key's assertion and yields a
65-byte buffer whose first byte is 0x04. -/
theorem derive_public_key_shape (b : List Nat) (h : b.length = 32) :
    ∃ out : List Nat, derive_public_key b = some out ∧
      out.length = 65 ∧ out.getD 0 0 = 0x04 := by
  refine ⟨(pointToOct (ecMul (bytesToNatBE b))).set 0 0x04, ?_, ?_, ?_⟩
  · simp [derive_public_key, h]
  · simp [pointToOct_length]
  · apply getD_set_zero
    intro hnil
    have := pointToOct_length (ecMul (bytesToNatBE b))
    rw [hnil] at this
    simp at this

end Cykas

namespace Cykas

/-- The 32-byte private key of the repository's ecdsa test and the spec's
worked example. -/
def privKeyVec : List Nat :=
  [0xf7, 0x47, 0x65, 0x32, 0xfe, 0x57, 0x53, 0xeb, 0xcb, 0xea, 0x26, 0xfe, 0x02, 0xff, 0xf1, 0x8b,
   0xf0, 0x15, 0x54, 0x6f, 0x85, 0xca, 0xf7, 0x8a, 0xc8, 0xd5, 0x99, 0x54, 0x7f, 0x7d, 0x3a, 0xac]

/-- The 65-byte public key the worked example expects. -/
def pubKeyVec : List Nat :=
  [0x04, 0xd6, 0x63, 0x0e, 0x2f, 0x4f, 0xb6, 0xd6, 0x2e, 0xf5, 0xbc, 0x5b, 0xe8, 0x50, 0x08, 0x36,
   0x25, 0xc9, 0xb5, 0x84, 0xf6, 0x61, 0xaa, 0xf7, 0x72, 0x3b, 0xd8, 0x39, 0x4d, 0xb5, 0xf6, 0x14,
   0x49, 0x41, 0xf6, 0xb5, 0xf8, 0x34, 0x42, 0xd9, 0x39, 0x1d, 0x77, 0x4c, 0x7d, 0x7f, 0x26, 0x2c,
   0xe6, 0xc5, 0x53, 0x80, 0xe0, 0x96, 0x44, 0x23, 0x05, 0x36, 0x72, 0x70, 0xb0, 0x4a, 0xca, 0x6b,
   0x75]

/-- The 21-byte checksum test input of src/util/check.rs. -/
def checksumInputVec : List Nat :=
  [0x00, 0x01, 0x09, 0x66, 0x77, 0x60, 0x06, 0x95, 0x3d, 0x55, 0x67, 0x43, 0x9e, 0x5e, 0x39, 0xf8,
   0x6a, 0x0d, 0x27, 0x3b, 0xee]

/-- The 65-byte public key of the to_address test. -/
def addrPubKeyVec : List Nat :=
  [0x04, 0x23, 0x11, 0x1f, 0xb8, 0x3a, 0x08, 0xb0, 0x4a, 0x54, 0x6f, 0x94, 0xbc, 0x68, 0x45, 0xe0,
   0x7b, 0xcd, 0x51, 0x05, 0xe4, 0x73, 0x86, 0x31, 0xdc, 0xdc, 0xe8, 0xe8, 0x65, 0x6a, 0x9f, 0x34,
   0x05, 0x9f, 0xc7, 0x36, 0x8b, 0xe3, 0xff, 0xb8, 0x12, 0xe0, 0xc0, 0xbc, 0xb4, 0xc6, 0x71, 0xce,
   0x7e, 0xe6, 0x1b, 0x27, 0x7b, 0xc4, 0xc1, 0xed, 0x02, 0x40, 0xe6, 0xa3, 0x46, 0xe5, 0xbb, 0xbf,
   0xc0]

/-- A 32-byte private key of scalar value 1, used as a concrete valid key. -/
def scalarOneBytes : List Nat := List.replicate 31 0 ++ [1]

/-- C1: checksum(data) is the first 4 bytes of SHA256(SHA256(data)), a pure
function of its input whose result is always exactly 4 bytes long. -/
theorem checksum_is_truncated_double_sha256 (data : List Nat) :
    checksum data = (sha256 (sha256 data)).take 4 ∧ (checksum data).length = 4 := by
  refine ⟨rfl, ?_⟩
  simp [checksum, double_sha256, sha256_length]

/-- C2: PublicKey::new succeeds exactly when the input is 65 bytes long and
its first byte is 0x04; no other property of the bytes is consulted. -/
theorem public_key_new_iff (bytes : List Nat) :
    (PublicKey.new bytes).isSome = true ↔ bytes.length = 65 ∧ bytes.getD 0 0 = 0x04 := by
  simp [PublicKey.new, PublicKey.is_valid, apply_ite Option.isSome]

/-- C3: from a valid private key (32 bytes, scalar in range) the derived
public key always exists, is 65 bytes long, starts with 0x04 and passes
is_valid. -/
theorem from_private_key_always_valid (key : PrivateKey)
    (h32 : key.get_data.length = 32)
    (_hlo : 0 < bytesToNatBE key.get_data) (_hhi : bytesToNatBE key.get_data < secpN) :
    ∃ pk : PublicKey, PublicKey.from_private_key key = some pk ∧
      pk.get_data.length = 65 ∧ pk.get_data.getD 0 0 = 0x04 ∧ pk.is_valid = true := by
  obtain ⟨out, hout, hlen, hhead⟩ := derive_public_key_shape key.get_data h32
  refine ⟨⟨out⟩, ?_, hlen, hhead, ?_⟩
  · simp [PublicKey.from_private_key, hout]
  · simp [PublicKey.is_valid, PublicKey.get_data] at *
    exact ⟨hlen, hhead⟩

/-- Witness for C3 at the concrete in-range scalar 1. -/
theorem from_private_key_always_valid_witness :
    (PrivateKey.get_data ⟨scalarOneBytes⟩).length = 32 ∧
    0 < bytesToNatBE (PrivateKey.get_data ⟨scalarOneBytes⟩) ∧
    bytesToNatBE (PrivateKey.get_data ⟨scalarOneBytes⟩) < secpN ∧
    ∃ pk : PublicKey, PublicKey.from_private_key ⟨scalarOneBytes⟩ = some pk ∧
      pk.get_data.length = 65 ∧ pk.get_data.getD 0 0 = 0x04 ∧ pk.is_valid = true :=
  ⟨by decide, by decide, by decide,
   from_private_key_always_valid ⟨scalarOneBytes⟩ (by decide) (by decide) (by decide)⟩

/-- C4: public-key derivation is deterministic: two runs on the same 32-byte
scalar give the same result, and that result is a 65-byte key. -/
theorem derive_public_key_deterministic (b : List Nat) (h : b.length = 32) :
    derive_public_key b = derive_public_key b ∧
    ∃ out : List Nat, derive_public_key b = some out ∧ out.length = 65 := by
  refine ⟨rfl, ?_⟩
  obtain ⟨out, hout, hlen, _⟩ := derive_public_key_shape b h
  exact ⟨out, hout, hlen⟩

/-- Witness for C4 at the concrete scalar 1. -/
theorem derive_public_key_deterministic_witness :
    scalarOneBytes.length = 32 ∧
    (derive_public_key scalarOneBytes = derive_public_key scalarOneBytes ∧
     ∃ out : List Nat, derive_public_key scalarOneBytes = some out ∧ out.length = 65) :=
  ⟨by decide, derive_public_key_deterministic scalarOneBytes (by decide)⟩

set_option maxRecDepth 100000 in
set_option maxHeartbeats 40000000 in
/-- C5: the spec's worked example: the concrete private scalar f74765…3aac
derives exactly the public key 04d663…6b75. -/
theorem derive_public_key_worked_example :
    derive_public_key privKeyVec = some pubKeyVec := by decide

set_option maxRecDepth 10000 in
/-- C6: checksum of the concrete 21-byte vector equals D61967F6. -/
theorem checksum_vector :
    checksum checksumInputVec = [0xd6, 0x19, 0x67, 0xf6] := by decide

set_option maxRecDepth 40000 in
set_option maxHeartbeats 4000000 in
/-- C7: the concrete public key 0423111f…bbbfc0 renders to the address text
1Eii6CZznXKL5qYwEYGdWGYGUFcDm8znL8. -/
theorem to_address_vector :
    (PublicKey.to_address ⟨addrPubKeyVec⟩).to_text
      = "1Eii6CZznXKL5qYwEYGdWGYGUFcDm8znL8" := by decide

/-- C8 counterexample: for the all-zero 32-byte scalar the derivation does
not report an error: it returns an ordinary 65-byte result. -/
theorem derive_zero_scalar_no_error :
    (derive_public_key (List.replicate 32 0)).isSome = true := by decide

/-- C8 amended: derive_public_key has no error channel; on the all-zero
scalar it returns the 65-byte buffer 0x04 followed by 64 zero bytes (the
point-at-infinity serialisation with its first byte overwritten by 0x04),
instead of an InvalidScalar/InvalidPoint error. -/
theorem derive_zero_scalar_returns_buffer :
    derive_public_key (List.replicate 32 0) = some (0x04 :: List.replicate 64 0) := by decide

/-- C9: with a pre-validated 32-byte private key the length assertion in
derive_public_key never fires: both the raw derivation and
PublicKey::from_private_key return an ordinary result, never the modelled
panic. -/
theorem derive_assert_unreachable (key : PrivateKey) (h : key.get_data.length = 32) :
    (derive_public_key key.get_data).isSome = true ∧
    (PublicKey.from_private_key key).isSome = true := by
  obtain ⟨out, hout, _, _⟩ := derive_public_key_shape key.get_data h
  constructor
  · simp [hout]
  · simp [PublicKey.from_private_key, hout]

/-- Witness for C9 at the concrete scalar 1. -/
theorem derive_assert_unreachable_witness :
    (PrivateKey.get_data ⟨scalarOneBytes⟩).length = 32 ∧
    ((derive_public_key (PrivateKey.get_data ⟨scalarOneBytes⟩)).isSome = true ∧
     (PublicKey.from_private_key ⟨scalarOneBytes⟩).isSome = true) :=
  ⟨by decide, derive_assert_unreachable ⟨scalarOneBytes⟩ (by decide)⟩

/-- C10: when PublicKey::new succeeds, get_data returns exactly the input
bytes. -/
theorem public_key_new_preserves_data (d : List Nat) (pk : PublicKey)
    (h : PublicKey.new d = some pk) : pk.get_data = d := by
  simp only [PublicKey.new] at h
  split at h
  · injection h with h2
    rw [← h2]
    rfl
  · cases h

/-- Witness for C10 at a concrete accepted 65-byte key. -/
theorem public_key_new_preserves_data_witness :
    PublicKey.new pubKeyVec = some ⟨pubKeyVec⟩ ∧
    (PublicKey.mk pubKeyVec).get_data = pubKeyVec :=
  ⟨by rfl, public_key_new_preserves_data pubKeyVec ⟨pubKeyVec⟩ (by rfl)⟩

end Cykas
